import Mathlib

/-!
Verification of the DS1302 real-time-clock driver (Go/TinyGo).

The development embeds the driver at two levels:

* `Bits`: the bit-banged 3-wire transport (`writeByte`, `readByte`) and the
  register protocol (`writeRegister`, `readRegister`), modelled as functions
  on an explicit line state that also records the trace of pin events.
* `Regs`: the driver facade (`SetTime`, `ReadTime`) at register granularity,
  over a store-model chip (a function from write address to last byte written)
  and an abstract read function for the read path.

Machine bytes (`uint8`) are modelled as `Nat` with explicit `% 256` at every
point where Go's `uint8` arithmetic can truncate, and Go `int` values as `Int`
with `Int.emod 256` for the `uint8(-)` conversion.  Go's `time.Time` is
modelled by its accessor view `GoTime` (year/month/day/hour/minute/second),
and `time.Date` — which the documented Go semantics says normalizes values
outside their usual ranges — by `timeDate` below.
-/

/-- The result type of Go `time.Time` accessors (`Year`, `Month`, `Day`,
`Hour`, `Minute`, `Second`): a calendar timestamp viewed as six integers.
The zero `time.Time` reads as 0001-01-01 00:00:00. -/
structure GoTime where
  year : Int
  month : Int
  day : Int
  hour : Int
  minute : Int
  second : Int
  deriving DecidableEq, Repr

/-- Go's `uint8(x)` conversion of an `int`: the low 8 bits, i.e. `x mod 256`. -/
def u8 (x : Int) : Nat := (x % 256).toNat

/-- Register address constants from the source (`DS1302_*`). -/
def DS1302_SECONDS_WRITE : Nat := 0x80

def DS1302_SECONDS_READ : Nat := 0x81

def DS1302_MINUTES_WRITE : Nat := 0x82

def DS1302_MINUTES_READ : Nat := 0x83

def DS1302_HOURS_WRITE : Nat := 0x84

def DS1302_HOURS_READ : Nat := 0x85

def DS1302_DATE_WRITE : Nat := 0x86

def DS1302_DATE_READ : Nat := 0x87

def DS1302_MONTH_WRITE : Nat := 0x88

def DS1302_MONTH_READ : Nat := 0x89

def DS1302_DAY_WRITE : Nat := 0x8A

def DS1302_DAY_READ : Nat := 0x8B

def DS1302_YEAR_WRITE : Nat := 0x8C

def DS1302_YEAR_READ : Nat := 0x8D

def DS1302_WP_WRITE : Nat := 0x8E

def DS1302_WP_READ : Nat := 0x8F

/-- Function `bcdToDec` from the source: `((bcd >> 4) * 10) + (bcd & 0x0F)` on `uint8`.
The inner `% 256` model the `uint8` type of the argument; the intermediate
results stay below 256, so no further truncation arises. -/
def bcdToDec (bcd : Nat) : Nat :=
  (((bcd % 256) >>> 4) * 10 + ((bcd % 256) &&& 0x0F)) % 256

/-- Function `decToBcd` from the source: `((dec / 10) << 4) + (dec % 10)` on `uint8`.
The shift can overflow 8 bits (for `dec ≥ 160`), hence the explicit `% 256`. -/
def decToBcd (dec : Nat) : Nat :=
  ((((dec % 256) / 10) <<< 4) % 256 + (dec % 256) % 10) % 256

/-- Leap-year test of the Go `time` package: `y%4 == 0 && (y%100 != 0 || y%400 == 0)`. -/
def isLeap (year : Int) : Bool :=
  year % 4 = 0 && (year % 100 != 0 || year % 400 = 0)

/-- Number of days of a month (1–12) in a given year, as in the Go `time`
package's `daysIn`. -/
def daysIn (year month : Int) : Int :=
  if month = 2 then (if isLeap year then 29 else 28)
  else if month = 4 ∨ month = 6 ∨ month = 9 ∨ month = 11 then 30
  else 31

/-- Go's `norm(hi, lo, base)`: carry `lo` into `hi` so that `0 ≤ lo < base`;
equals Euclidean division/remainder. -/
def normPair (hi lo base : Int) : Int × Int :=
  (hi + lo / base, lo % base)

/-- Borrow an out-of-range-low day-of-month from the preceding months:
while `d < 1`, step to the previous month and add its length.  Fuel-indexed;
any fuel of at least `|d| / 28 + 2` reaches the fixed point. -/
def rollDayBack : Nat → Int → Int → Int → Int × Int × Int
  | 0, y, m, d => (y, m, d)
  | fuel + 1, y, m, d =>
    if d < 1 then
      let y2 := if m = 1 then y - 1 else y
      let m2 := if m = 1 then 12 else m - 1
      rollDayBack fuel y2 m2 (d + daysIn y2 m2)
    else (y, m, d)

/-- Carry an out-of-range-high day-of-month into the following months:
while `d > daysIn y m`, subtract the month length and step forward. -/
def rollDayFwd : Nat → Int → Int → Int → Int × Int × Int
  | 0, y, m, d => (y, m, d)
  | fuel + 1, y, m, d =>
    if d > daysIn y m then
      let y2 := if m = 12 then y + 1 else y
      let m2 := if m = 12 then 1 else m + 1
      rollDayFwd fuel y2 m2 (d - daysIn y m)
    else (y, m, d)

/-- Model of Go `time.Date(year, month, day, hour, minute, second, 0, UTC)`
followed by the field accessors.  Per the Go documentation the argument
values "may be outside their usual ranges and will be normalized during the
conversion": the month is reduced into the year, seconds/minutes/hours carry
upwards, and the day is folded into the month/year by the calendar. -/
def timeDate (year month day hour minute second : Int) : GoTime :=
  let ym := normPair year (month - 1) 12
  let mo0 := ym.2 + 1
  let ms := normPair minute second 60
  let hm := normPair hour ms.1 60
  let dh := normPair day hm.1 24
  let r1 := rollDayBack (dh.1.natAbs / 28 + 2) ym.1 mo0 dh.1
  let r2 := rollDayFwd (r1.2.2.natAbs / 28 + 2) r1.1 r1.2.1 r1.2.2
  { year := r2.1, month := r2.2.1, day := r2.2.2,
    hour := dh.2, minute := hm.2, second := ms.2 }

namespace Regs

/-- Register-level state of a store-model chip together with the trace of
register writes issued so far: the chip stores each byte written at its write
address. -/
def writeRegister (s : (Nat → Nat) × List (Nat × Nat)) (reg value : Nat) :
    (Nat → Nat) × List (Nat × Nat) :=
  (fun a => if a = reg then value else s.1 a, s.2 ++ [(reg, value)])

/-- A read of register `reg` at register granularity: the environment is an
arbitrary function giving the byte the chip answers on each read address. -/
def readRegister (read : Nat → Nat) (reg : Nat) : Nat := read reg

/-- Method `SetTime` from the source: disable write-protect, write the six time
fields in BCD (year as `uint8(t.Year() - 2000)`), re-enable write-protect. -/
def SetTime (s : (Nat → Nat) × List (Nat × Nat)) (t : GoTime) :
    (Nat → Nat) × List (Nat × Nat) :=
  let s := writeRegister s DS1302_WP_WRITE 0x00
  let s := writeRegister s DS1302_SECONDS_WRITE (decToBcd (u8 t.second))
  let s := writeRegister s DS1302_MINUTES_WRITE (decToBcd (u8 t.minute))
  let s := writeRegister s DS1302_HOURS_WRITE (decToBcd (u8 t.hour))
  let s := writeRegister s DS1302_DATE_WRITE (decToBcd (u8 t.day))
  let s := writeRegister s DS1302_MONTH_WRITE (decToBcd (u8 t.month))
  let s := writeRegister s DS1302_YEAR_WRITE (decToBcd (u8 (t.year - 2000)))
  writeRegister s DS1302_WP_WRITE 0x80

/-- Method `ReadTime` from the source: decode the six read registers (seconds masked
with `0x7F`, year offset by 2000) and assemble the result with `time.Date`. -/
def ReadTime (read : Nat → Nat) : GoTime :=
  let seconds := bcdToDec (readRegister read DS1302_SECONDS_READ &&& 0x7F)
  let minutes := bcdToDec (readRegister read DS1302_MINUTES_READ)
  let hours := bcdToDec (readRegister read DS1302_HOURS_READ)
  let day := bcdToDec (readRegister read DS1302_DATE_READ)
  let month := bcdToDec (readRegister read DS1302_MONTH_READ)
  let year : Int := 2000 + (bcdToDec (readRegister read DS1302_YEAR_READ) : Int)
  timeDate year (month : Int) (day : Int) (hours : Int) (minutes : Int) (seconds : Int)

end Regs

namespace Bits

/-- Logic level of a digital line. -/
inductive Level
  | low
  | high
  deriving DecidableEq, Repr

/-- The three lines the driver owns: serial clock, serial data, chip select. -/
inductive PinId
  | clk
  | dat
  | rst
  deriving DecidableEq, Repr

/-- Direction a pin is configured to (`machine.PinOutput` / `machine.PinInput`). -/
inductive PinMode
  | output
  | input
  deriving DecidableEq, Repr

/-- One observable action on the lines: configuring a pin's direction,
driving a pin to a level, the fixed one-microsecond delay, or sampling the
data line (recording the level seen). -/
inductive Event
  | configure (p : PinId) (m : PinMode)
  | set (p : PinId) (l : Level)
  | sleepUs
  | sample (l : Level)
  deriving DecidableEq, Repr

/-- State of the three lines together with the trace of events so far. -/
structure LineState where
  clkLevel : Level
  datLevel : Level
  rstLevel : Level
  clkMode : PinMode
  datMode : PinMode
  rstMode : PinMode
  trace : List Event

/-- Operations `pin.High()` / `pin.Low()`: drive a line and record the event. -/
def pinSet (s : LineState) (p : PinId) (l : Level) : LineState :=
  match p with
  | PinId.clk => { s with clkLevel := l, trace := s.trace ++ [Event.set PinId.clk l] }
  | PinId.dat => { s with datLevel := l, trace := s.trace ++ [Event.set PinId.dat l] }
  | PinId.rst => { s with rstLevel := l, trace := s.trace ++ [Event.set PinId.rst l] }

/-- Operation `pin.Configure` with mode `m`: set a pin's direction. -/
def pinConfigure (s : LineState) (p : PinId) (m : PinMode) : LineState :=
  match p with
  | PinId.clk => { s with clkMode := m, trace := s.trace ++ [Event.configure PinId.clk m] }
  | PinId.dat => { s with datMode := m, trace := s.trace ++ [Event.configure PinId.dat m] }
  | PinId.rst => { s with rstMode := m, trace := s.trace ++ [Event.configure PinId.rst m] }

/-- Call `time.Sleep(time.Microsecond)`: the fixed inter-edge delay. -/
def sleepUs (s : LineState) : LineState :=
  { s with trace := s.trace ++ [Event.sleepUs] }

/-- Method `Init` from the source: configure all three pins as outputs, then drive
clock, chip select and data low. -/
def Init (s : LineState) : LineState :=
  let s := pinConfigure s PinId.clk PinMode.output
  let s := pinConfigure s PinId.dat PinMode.output
  let s := pinConfigure s PinId.rst PinMode.output
  let s := pinSet s PinId.clk Level.low
  let s := pinSet s PinId.rst Level.low
  pinSet s PinId.dat Level.low

/-- Level driven on the data line for bit `i` of `data`:
high iff `data & (1 << i) != 0`. -/
def bitLevel (data i : Nat) : Level :=
  if data &&& (1 <<< i) ≠ 0 then Level.high else Level.low

/-- One iteration of the `writeByte` loop: drive the data line to bit `i`,
raise the clock, delay, lower the clock, delay. -/
def writeBitStep (data : Nat) (s : LineState) (i : Nat) : LineState :=
  let s := pinSet s PinId.dat (bitLevel data i)
  let s := pinSet s PinId.clk Level.high
  let s := sleepUs s
  let s := pinSet s PinId.clk Level.low
  sleepUs s

/-- Method `writeByte` from the source: configure the data line as an output, then
shift the byte out least-significant bit first. -/
def writeByte (s : LineState) (data : Nat) : LineState :=
  let s := pinConfigure s PinId.dat PinMode.output
  (List.range 8).foldl (writeBitStep data) s

/-- One iteration of the `readByte` loop, with `input i` the level `dat.Get()`
returns at iteration `i`: raise the clock, delay, sample, or the sampled bit
into the accumulator, lower the clock, delay. -/
def readBitStep (input : Nat → Bool) (sd : LineState × Nat) (i : Nat) :
    LineState × Nat :=
  let s := pinSet sd.1 PinId.clk Level.high
  let s := sleepUs s
  let s := { s with trace := s.trace ++ [Event.sample (if input i then Level.high else Level.low)] }
  let d := if input i then sd.2 ||| (1 <<< i) else sd.2
  let s := pinSet s PinId.clk Level.low
  (sleepUs s, d)

/-- Method `readByte` from the source: configure the data line as an input, then
shift a byte in least-significant bit first, starting from `data = 0`. -/
def readByte (s : LineState) (input : Nat → Bool) : LineState × Nat :=
  let s := pinConfigure s PinId.dat PinMode.input
  (List.range 8).foldl (readBitStep input) (s, 0)

/-- Method `writeRegister` from the source: assert chip select, send the register
address then the data byte, deassert chip select. -/
def writeRegister (s : LineState) (reg value : Nat) : LineState :=
  let s := pinSet s PinId.rst Level.high
  let s := writeByte s reg
  let s := writeByte s value
  pinSet s PinId.rst Level.low

/-- Method `readRegister` from the source: assert chip select, send the register
address, receive the data byte, deassert chip select. -/
def readRegister (s : LineState) (reg : Nat) (input : Nat → Bool) :
    LineState × Nat :=
  let s := pinSet s PinId.rst Level.high
  let s := writeByte s reg
  let sv := readByte s input
  (pinSet sv.1 PinId.rst Level.low, sv.2)

/-- The event sequence one `writeByte data` call appends to the trace. -/
def writeByteEvents (data : Nat) : List Event :=
  Event.configure PinId.dat PinMode.output ::
    (List.range 8).flatMap (fun i =>
      [Event.set PinId.dat (bitLevel data i),
       Event.set PinId.clk Level.high, Event.sleepUs,
       Event.set PinId.clk Level.low, Event.sleepUs])

/-- The event sequence one `readByte` call appends to the trace when the data
line shows `input i` at sampling instant `i`. -/
def readByteEvents (input : Nat → Bool) : List Event :=
  Event.configure PinId.dat PinMode.input ::
    (List.range 8).flatMap (fun i =>
      [Event.set PinId.clk Level.high, Event.sleepUs,
       Event.sample (if input i then Level.high else Level.low),
       Event.set PinId.clk Level.low, Event.sleepUs])

/-- Whether an event acts on the chip-select (`rst`) line. -/
def touchesRst : Event → Bool
  | Event.configure PinId.rst _ => true
  | Event.set PinId.rst _ => true
  | _ => false

end Bits

/-- One call against the public driver surface, for runs of the no-op stub. -/
inductive StubCall
  | initCall
  | setCall (t : GoTime)
  | readCall

namespace Stub

/-- The accessor view of the zero `time.Time` that the stub's `ReadTime`
returns: 0001-01-01 00:00:00. -/
def zeroTime : GoTime :=
  { year := 1, month := 1, day := 1, hour := 0, minute := 0, second := 0 }

/-- Stub `Init` (non-TinyGo build): does nothing, performs no pin event. -/
def Init : List Bits.Event := []

/-- Stub `SetTime`: ignores its argument, performs no pin event. -/
def SetTime (_ : GoTime) : List Bits.Event := []

/-- Stub `ReadTime`: performs no pin event and returns `time.Time{}`. -/
def ReadTime : GoTime × List Bits.Event := (zeroTime, [])

/-- Run a sequence of calls against the stub backend, collecting all pin
events performed and all values returned by `ReadTime` calls, in order. -/
def runCalls : List StubCall → List Bits.Event × List GoTime
  | [] => ([], [])
  | c :: rest =>
    let step : List Bits.Event × List GoTime :=
      match c with
      | StubCall.initCall => (Stub.Init, [])
      | StubCall.setCall t => (Stub.SetTime t, [])
      | StubCall.readCall => (Stub.ReadTime.2, [Stub.ReadTime.1])
    let r := runCalls rest
    (step.1 ++ r.1, step.2 ++ r.2)

/-- Whether a call is a `ReadTime` call. -/
def isRead : StubCall → Bool
  | StubCall.readCall => true
  | _ => false

end Stub

/-- A concrete chip answer for the six read registers: raw seconds `0xD9`
(clock-halt bit set on BCD 59), minutes `0x00`, hours `0x21`, date `0x05`,
month `0x08`, year `0x24` — i.e. 2024-08-05 21:00:59 with the halt flag on. -/
def sampleRead : Nat → Nat := fun a =>
  if a = 0x81 then 0xD9
  else if a = 0x83 then 0x00
  else if a = 0x85 then 0x21
  else if a = 0x87 then 0x05
  else if a = 0x89 then 0x08
  else if a = 0x8D then 0x24
  else 0

/-- A concrete chip answer whose hours register holds the out-of-range BCD
byte `0x25` (decoded hour 25), with 2024-08-05 00:00:00 otherwise. -/
def overflowRead : Nat → Nat := fun a =>
  if a = 0x81 then 0x00
  else if a = 0x83 then 0x00
  else if a = 0x85 then 0x25
  else if a = 0x87 then 0x05
  else if a = 0x89 then 0x08
  else if a = 0x8D then 0x24
  else 0

example : decToBcd 45 = 0x45 := by decide

example : decToBcd 0 = 0x00 := by decide

example : decToBcd 99 = 0x99 := by decide

example : bcdToDec 0x24 = 24 := by decide

example : bcdToDec (0xD9 &&& 0x7F) = 59 := by decide

example : timeDate 2024 8 5 21 0 0 = ⟨2024, 8, 5, 21, 0, 0⟩ := by decide

example : timeDate 2024 8 5 25 0 0 = ⟨2024, 8, 6, 1, 0, 0⟩ := by decide

example : timeDate 2023 2 31 0 0 0 = ⟨2023, 3, 3, 0, 0, 0⟩ := by decide

example : timeDate 2024 1 60 0 0 0 = ⟨2024, 2, 29, 0, 0, 0⟩ := by decide

example : timeDate 2024 13 1 0 0 0 = ⟨2025, 1, 1, 0, 0, 0⟩ := by decide

example : timeDate 2024 8 0 0 0 0 = ⟨2024, 7, 31, 0, 0, 0⟩ := by decide

/-! ### Helper lemmas -/

/-- BCD round-trip on two-digit values. -/
theorem bcdRound : ∀ n : Nat, n ≤ 99 → bcdToDec (decToBcd n) = n := by decide

/-- BCD round-trip through the clock-halt mask, for in-range seconds. -/
theorem bcdRoundMasked : ∀ n : Nat, n ≤ 59 → bcdToDec (decToBcd n &&& 0x7F) = n := by
  decide

/-- Setting bit 7 of a byte does not change its low seven bits. -/
theorem or128_and127 (x : Nat) : (x ||| 128) &&& 127 = x &&& 127 := by
  rw [Nat.and_distrib_right]
  rw [(by decide : (128 : Nat) &&& 127 = 0), Nat.or_zero]

/-- Fact: `rollDayBack` is the identity once the day is at least 1. -/
theorem rollDayBack_id (f : Nat) (y m d : Int) (hd : 1 ≤ d) :
    rollDayBack f y m d = (y, m, d) := by
  cases f with
  | zero => rfl
  | succ k =>
    rw [rollDayBack]
    rw [if_neg (by omega : ¬ d < 1)]

/-- Fact: `rollDayFwd` is the identity once the day fits in the month. -/
theorem rollDayFwd_id (f : Nat) (y m d : Int) (hd : d ≤ daysIn y m) :
    rollDayFwd f y m d = (y, m, d) := by
  cases f with
  | zero => rfl
  | succ k =>
    rw [rollDayFwd]
    rw [if_neg (by omega : ¬ d > daysIn y m)]

/-- The two day-rolling passes together are the identity on a valid day. -/
theorem rollDay_id (f1 f2 : Nat) (y m d : Int) (hd1 : 1 ≤ d) (hd2 : d ≤ daysIn y m) :
    rollDayFwd f2 (rollDayBack f1 y m d).1 (rollDayBack f1 y m d).2.1
      (rollDayBack f1 y m d).2.2 = (y, m, d) := by
  rw [rollDayBack_id f1 y m d hd1]
  exact rollDayFwd_id f2 y m d hd2

/-- Normalization by `time.Date` is the identity on a valid calendar value. -/
theorem timeDate_id (y mo d h mi s : Int)
    (hmo1 : 1 ≤ mo) (hmo2 : mo ≤ 12)
    (hd1 : 1 ≤ d) (hd2 : d ≤ daysIn y mo)
    (hh1 : 0 ≤ h) (hh2 : h ≤ 23)
    (hmi1 : 0 ≤ mi) (hmi2 : mi ≤ 59)
    (hs1 : 0 ≤ s) (hs2 : s ≤ 59) :
    timeDate y mo d h mi s = ⟨y, mo, d, h, mi, s⟩ := by
  have e1 : (mo - 1) / 12 = 0 := by omega
  have e2 : (mo - 1) % 12 = mo - 1 := by omega
  have e3 : s / 60 = 0 := by omega
  have e4 : s % 60 = s := by omega
  have e5 : mi / 60 = 0 := by omega
  have e6 : mi % 60 = mi := by omega
  have e7 : h / 24 = 0 := by omega
  have e8 : h % 24 = h := by omega
  have e9 : mo - 1 + 1 = mo := by ring
  simp only [timeDate, normPair, e1, e2, e3, e4, e5, e6, e7, e8, e9, add_zero]
  rw [rollDay_id _ _ y mo d hd1 hd2]

/-- Reading back: `ReadTime` returns exactly the decoded register values whenever those
decoded values form a valid calendar date-time. -/
theorem readTime_eq_of_valid (read : Nat → Nat)
    (hs : bcdToDec (read DS1302_SECONDS_READ &&& 0x7F) ≤ 59)
    (hmi : bcdToDec (read DS1302_MINUTES_READ) ≤ 59)
    (hh : bcdToDec (read DS1302_HOURS_READ) ≤ 23)
    (hmo1 : 1 ≤ bcdToDec (read DS1302_MONTH_READ))
    (hmo2 : bcdToDec (read DS1302_MONTH_READ) ≤ 12)
    (hd1 : 1 ≤ bcdToDec (read DS1302_DATE_READ))
    (hd2 : (bcdToDec (read DS1302_DATE_READ) : Int) ≤
      daysIn (2000 + (bcdToDec (read DS1302_YEAR_READ) : Int))
        (bcdToDec (read DS1302_MONTH_READ) : Int)) :
    Regs.ReadTime read =
      ⟨2000 + (bcdToDec (read DS1302_YEAR_READ) : Int),
       (bcdToDec (read DS1302_MONTH_READ) : Int),
       (bcdToDec (read DS1302_DATE_READ) : Int),
       (bcdToDec (read DS1302_HOURS_READ) : Int),
       (bcdToDec (read DS1302_MINUTES_READ) : Int),
       (bcdToDec (read DS1302_SECONDS_READ &&& 0x7F) : Int)⟩ := by
  unfold Regs.ReadTime Regs.readRegister
  exact timeDate_id _ _ _ _ _ _ (by exact_mod_cast hmo1) (by exact_mod_cast hmo2)
    (by exact_mod_cast hd1) hd2 (by positivity) (by exact_mod_cast hh)
    (by positivity) (by exact_mod_cast hmi) (by positivity) (by exact_mod_cast hs)

/-! ### Claim theorems -/

/-- Claim C4: for every integer `n` with `0 ≤ n ≤ 99`,
`bcdToDec (decToBcd n) = n`. -/
theorem bcd_roundtrip_0_99 (n : Nat) (h : n ≤ 99) : bcdToDec (decToBcd n) = n :=
  bcdRound n h

/-- Witness for C4 at `n = 45`. -/
theorem bcd_roundtrip_0_99_witness : (45 : Nat) ≤ 99 ∧ bcdToDec (decToBcd 45) = 45 :=
  ⟨by decide, bcd_roundtrip_0_99 45 (by decide)⟩

/-- Claim C2: the register-write trace of one `SetTime` call consists of
exactly 8 writes — `(0x8E, 0x00)` first, `(0x8E, 0x80)` last, and the six
field writes in between targeting, in order, the seconds, minutes, hours,
date, month and year write addresses. -/
theorem setTime_write_protect_bracket (t : GoTime) (c : Nat → Nat) :
    ((Regs.SetTime (c, []) t).2).length = 8 ∧
    ((Regs.SetTime (c, []) t).2).head? = some (DS1302_WP_WRITE, 0x00) ∧
    ((Regs.SetTime (c, []) t).2).getLast? = some (DS1302_WP_WRITE, 0x80) ∧
    ((((Regs.SetTime (c, []) t).2).map Prod.fst).drop 1).take 6 =
      [DS1302_SECONDS_WRITE, DS1302_MINUTES_WRITE, DS1302_HOURS_WRITE,
       DS1302_DATE_WRITE, DS1302_MONTH_WRITE, DS1302_YEAR_WRITE] :=
  ⟨rfl, rfl, rfl, rfl⟩

/-- Claim C3: `ReadTime` masks bit 7 (the clock-halt flag) off the raw
seconds byte before decoding, so forcing that bit high changes nothing in
the returned timestamp, and the raw seconds byte `0xD9` yields seconds 59. -/
theorem readTime_seconds_halt_mask (read : Nat → Nat) :
    Regs.ReadTime (fun a => if a = DS1302_SECONDS_READ then read a ||| 0x80 else read a) =
      Regs.ReadTime read ∧
    (Regs.ReadTime sampleRead).second = 59 := by
  constructor
  · unfold Regs.ReadTime Regs.readRegister DS1302_SECONDS_READ DS1302_MINUTES_READ
      DS1302_HOURS_READ DS1302_DATE_READ DS1302_MONTH_READ DS1302_YEAR_READ
    norm_num
    rw [or128_and127]
  · decide

/-- Counterexample for C5: for year 2100 the claim's mod-100 rule predicts
the year byte of year 2000 (`0x00`), but `SetTime` writes
`decToBcd(uint8(100)) = 0xA0`. -/
theorem setTime_year_mod100_cex :
    (2000 + ((2100 - 2000) % 100) : Int) = 2000 ∧
    ((Regs.SetTime (fun _ => 0, []) ⟨2100, 1, 1, 0, 0, 0⟩).2)[6]? = some (0x8C, 0xA0) ∧
    ((Regs.SetTime (fun _ => 0, []) ⟨2000, 1, 1, 0, 0, 0⟩).2)[6]? = some (0x8C, 0x00) ∧
    (0xA0 : Nat) ≠ 0x00 := by decide

/-- Claim C5 (amended): `SetTime` writes `decToBcd (uint8 (year - 2000))` to
register 0x8C — for 2024 that is `0x24`; outside 2000–2099 the stored byte
wraps through the `uint8` conversion mod 256, not mod 100.  `ReadTime`
reconstructs the year as `2000 + bcdToDec raw`, so raw `0x24` yields 2024. -/
theorem setTime_year_encoding (t : GoTime) (c : Nat → Nat) :
    ((Regs.SetTime (c, []) t).2)[6]? =
      some (DS1302_YEAR_WRITE, decToBcd (u8 (t.year - 2000))) ∧
    decToBcd (u8 (2024 - 2000)) = 0x24 ∧
    (Regs.ReadTime sampleRead).year = 2024 :=
  ⟨rfl, by decide, by decide⟩

/-- Claim C1: for a timestamp with seconds/minutes in 0–59, hours in 0–23,
day 1–31, month 1–12 and year 2000–2099, `SetTime` followed by `ReadTime`
through a chip that stores each written byte at its write address and
returns it on the matching read address (read = write + 1) reproduces all
six fields exactly, and the day-of-week register 0x8A is never touched.
The hypothesis `t.day ≤ daysIn t.year t.month` states that `t` is a value
of Go's `time.Time` type: its accessors always form a valid calendar date,
so the day of month cannot exceed the length of its month (`SetTime`'s
argument has type `time.Time`, which admits no other inputs). -/
theorem setTime_readTime_roundtrip (t : GoTime) (c0 : Nat → Nat)
    (hs1 : 0 ≤ t.second) (hs2 : t.second ≤ 59)
    (hmi1 : 0 ≤ t.minute) (hmi2 : t.minute ≤ 59)
    (hh1 : 0 ≤ t.hour) (hh2 : t.hour ≤ 23)
    (hd1 : 1 ≤ t.day) (hd2 : t.day ≤ 31) (hd3 : t.day ≤ daysIn t.year t.month)
    (hmo1 : 1 ≤ t.month) (hmo2 : t.month ≤ 12)
    (hy1 : 2000 ≤ t.year) (hy2 : t.year ≤ 2099) :
    Regs.ReadTime (fun a => (Regs.SetTime (c0, []) t).1 (a - 1)) = t ∧
    (Regs.SetTime (c0, []) t).1 DS1302_DAY_WRITE = c0 DS1302_DAY_WRITE := by
  constructor
  · unfold Regs.ReadTime Regs.readRegister Regs.SetTime Regs.writeRegister
    norm_num [DS1302_SECONDS_READ, DS1302_MINUTES_READ, DS1302_HOURS_READ,
      DS1302_DATE_READ, DS1302_MONTH_READ, DS1302_YEAR_READ, DS1302_SECONDS_WRITE,
      DS1302_MINUTES_WRITE, DS1302_HOURS_WRITE, DS1302_DATE_WRITE, DS1302_MONTH_WRITE,
      DS1302_YEAR_WRITE, DS1302_WP_WRITE]
    rw [show u8 (t.year - 2000) = (t.year - 2000).toNat from by unfold u8; omega,
      show u8 t.month = t.month.toNat from by unfold u8; omega,
      show u8 t.day = t.day.toNat from by unfold u8; omega,
      show u8 t.hour = t.hour.toNat from by unfold u8; omega,
      show u8 t.minute = t.minute.toNat from by unfold u8; omega,
      show u8 t.second = t.second.toNat from by unfold u8; omega]
    rw [bcdRound (t.year - 2000).toNat (by omega), bcdRound t.month.toNat (by omega),
      bcdRound t.day.toNat (by omega), bcdRound t.hour.toNat (by omega),
      bcdRound t.minute.toNat (by omega), bcdRoundMasked t.second.toNat (by omega)]
    rw [show ((t.year - 2000).toNat : Int) = t.year - 2000 from by omega,
      show (t.month.toNat : Int) = t.month from by omega,
      show (t.day.toNat : Int) = t.day from by omega,
      show (t.hour.toNat : Int) = t.hour from by omega,
      show (t.minute.toNat : Int) = t.minute from by omega,
      show (t.second.toNat : Int) = t.second from by omega]
    rw [show (2000 : Int) + (t.year - 2000) = t.year from by ring]
    rw [timeDate_id t.year t.month t.day t.hour t.minute t.second hmo1 hmo2 hd1 hd3
      hh1 hh2 hmi1 hmi2 hs1 hs2]
  · unfold Regs.SetTime Regs.writeRegister
    norm_num [DS1302_SECONDS_WRITE, DS1302_MINUTES_WRITE, DS1302_HOURS_WRITE,
      DS1302_DATE_WRITE, DS1302_MONTH_WRITE, DS1302_YEAR_WRITE, DS1302_WP_WRITE,
      DS1302_DAY_WRITE]

/-- Witness for C1 at 2024-08-05 21:00:00 over the all-zero initial chip. -/
theorem setTime_readTime_roundtrip_witness :
    Regs.ReadTime
        (fun a => (Regs.SetTime ((fun _ => 0), []) ⟨2024, 8, 5, 21, 0, 0⟩).1 (a - 1)) =
      ⟨2024, 8, 5, 21, 0, 0⟩ ∧
    (Regs.SetTime ((fun _ => 0), []) ⟨2024, 8, 5, 21, 0, 0⟩).1 DS1302_DAY_WRITE =
      (fun _ => (0 : Nat)) DS1302_DAY_WRITE :=
  setTime_readTime_roundtrip ⟨2024, 8, 5, 21, 0, 0⟩ (fun _ => 0)
    (by decide) (by decide) (by decide) (by decide) (by decide) (by decide)
    (by decide) (by decide) (by decide) (by decide) (by decide) (by decide) (by decide)

/-- Counterexample for C6: when the hours register returns `0x25` (decoded
hour 25, out of calendar range) the returned timestamp does not carry the
decoded value verbatim — the constructor normalizes it to hour 1 of the
following day. -/
theorem readTime_not_verbatim_cex :
    bcdToDec (overflowRead DS1302_HOURS_READ) = 25 ∧
    (Regs.ReadTime overflowRead).hour = 1 ∧
    (Regs.ReadTime overflowRead).day = 6 ∧
    (1 : Int) ≠ 25 := by decide

/-- Claim C6 (amended): `ReadTime` applies no validation, correction or
offset conversion of its own — each decoded register value is handed to the
timestamp constructor unchanged — but the constructor (`time.Date`)
normalizes out-of-range values, so the fields are only guaranteed verbatim
when the decoded values form a valid calendar date-time: then each field of
the returned timestamp equals the BCD-decoded register value (seconds
masked with 0x7F, year offset by 2000). -/
theorem readTime_verbatim_on_valid (read : Nat → Nat)
    (hs : bcdToDec (read DS1302_SECONDS_READ &&& 0x7F) ≤ 59)
    (hmi : bcdToDec (read DS1302_MINUTES_READ) ≤ 59)
    (hh : bcdToDec (read DS1302_HOURS_READ) ≤ 23)
    (hmo1 : 1 ≤ bcdToDec (read DS1302_MONTH_READ))
    (hmo2 : bcdToDec (read DS1302_MONTH_READ) ≤ 12)
    (hd1 : 1 ≤ bcdToDec (read DS1302_DATE_READ))
    (hd2 : (bcdToDec (read DS1302_DATE_READ) : Int) ≤
      daysIn (2000 + (bcdToDec (read DS1302_YEAR_READ) : Int))
        (bcdToDec (read DS1302_MONTH_READ) : Int)) :
    (Regs.ReadTime read).second = (bcdToDec (read DS1302_SECONDS_READ &&& 0x7F) : Int) ∧
    (Regs.ReadTime read).minute = (bcdToDec (read DS1302_MINUTES_READ) : Int) ∧
    (Regs.ReadTime read).hour = (bcdToDec (read DS1302_HOURS_READ) : Int) ∧
    (Regs.ReadTime read).day = (bcdToDec (read DS1302_DATE_READ) : Int) ∧
    (Regs.ReadTime read).month = (bcdToDec (read DS1302_MONTH_READ) : Int) ∧
    (Regs.ReadTime read).year = 2000 + (bcdToDec (read DS1302_YEAR_READ) : Int) := by
  rw [readTime_eq_of_valid read hs hmi hh hmo1 hmo2 hd1 hd2]
  exact ⟨rfl, rfl, rfl, rfl, rfl, rfl⟩

/-- Witness for C6 (amended) on the in-range concrete chip answer. -/
theorem readTime_verbatim_on_valid_witness :
    (Regs.ReadTime sampleRead).second = (bcdToDec (sampleRead DS1302_SECONDS_READ &&& 0x7F) : Int) ∧
    (Regs.ReadTime sampleRead).minute = (bcdToDec (sampleRead DS1302_MINUTES_READ) : Int) ∧
    (Regs.ReadTime sampleRead).hour = (bcdToDec (sampleRead DS1302_HOURS_READ) : Int) ∧
    (Regs.ReadTime sampleRead).day = (bcdToDec (sampleRead DS1302_DATE_READ) : Int) ∧
    (Regs.ReadTime sampleRead).month = (bcdToDec (sampleRead DS1302_MONTH_READ) : Int) ∧
    (Regs.ReadTime sampleRead).year = 2000 + (bcdToDec (sampleRead DS1302_YEAR_READ) : Int) :=
  readTime_verbatim_on_valid sampleRead (by decide) (by decide) (by decide)
    (by decide) (by decide) (by decide) (by decide)

/-- Claim C10: `Init` leaves clock and chip select at the low idle level,
each byte-transfer loop ends with the clock low, and both register
transactions end with clock and chip select low — every public operation
starts from and restores the idle line state. -/
theorem idle_levels_after_ops (s : Bits.LineState) (reg value data : Nat)
    (input : Nat → Bool) :
    ((Bits.Init s).clkLevel = Bits.Level.low ∧ (Bits.Init s).rstLevel = Bits.Level.low) ∧
    (Bits.writeByte s data).clkLevel = Bits.Level.low ∧
    (Bits.readByte s input).1.clkLevel = Bits.Level.low ∧
    ((Bits.writeRegister s reg value).clkLevel = Bits.Level.low ∧
      (Bits.writeRegister s reg value).rstLevel = Bits.Level.low) ∧
    ((Bits.readRegister s reg input).1.clkLevel = Bits.Level.low ∧
      (Bits.readRegister s reg input).1.rstLevel = Bits.Level.low) :=
  ⟨⟨rfl, rfl⟩, rfl, rfl, ⟨rfl, rfl⟩, ⟨rfl, rfl⟩⟩

/-- The trace effect of driving one pin. -/
theorem pinSet_trace (s : Bits.LineState) (p : Bits.PinId) (l : Bits.Level) :
    (Bits.pinSet s p l).trace = s.trace ++ [Bits.Event.set p l] := by
  cases p <;> rfl

/-- Trace shape: `writeByte` appends exactly `writeByteEvents data` to the trace. -/
theorem writeByte_trace (s : Bits.LineState) (data : Nat) :
    (Bits.writeByte s data).trace = s.trace ++ Bits.writeByteEvents data := by
  simp [Bits.writeByte, Bits.writeBitStep, Bits.pinSet, Bits.pinConfigure, Bits.sleepUs,
    Bits.writeByteEvents, List.range_succ, List.append_assoc]

/-- Trace shape: `readByte` appends exactly `readByteEvents input` to the trace. -/
theorem readByte_trace (s : Bits.LineState) (input : Nat → Bool) :
    (Bits.readByte s input).1.trace = s.trace ++ Bits.readByteEvents input := by
  simp [Bits.readByte, Bits.readBitStep, Bits.pinSet, Bits.pinConfigure, Bits.sleepUs,
    Bits.readByteEvents, List.range_succ, List.append_assoc]


/-- Projection of the `readByte` fold onto the assembled value: the line
state does not influence it. -/
theorem readFold_snd (input : Nat → Bool) (l : List Nat) :
    ∀ st acc, (List.foldl (Bits.readBitStep input) (st, acc) l).2 =
      List.foldl (fun a i => if input i then a ||| (1 <<< i) else a) acc l := by
  induction l with
  | nil => intro st acc; rfl
  | cons i rest ih => intro st acc; exact ih _ _

/-- Oring a fresh power of two into a smaller number is addition. -/
theorem or_two_pow_eq_add (n x : Nat) (h : x < 2 ^ n) : x ||| 2 ^ n = x + 2 ^ n := by
  apply Nat.eq_of_testBit_eq
  intro i
  rw [Nat.testBit_or]
  rcases Nat.lt_trichotomy i n with hi | rfl | hi
  · rw [Nat.add_comm, Nat.testBit_two_pow_add_gt hi]
    simp [Nat.testBit_two_pow_of_ne (Nat.ne_of_gt hi)]
  · rw [Nat.add_comm, Nat.testBit_two_pow_add_eq]
    simp [Nat.testBit_lt_two_pow h, Nat.testBit_two_pow_self]
  · have h1 : x.testBit i = false :=
      Nat.testBit_lt_two_pow (lt_trans h (Nat.pow_lt_pow_right (by norm_num) hi))
    have h2 : Nat.testBit (2 ^ n) i = false := Nat.testBit_two_pow_of_ne (Nat.ne_of_lt hi)
    have h3 : (x + 2 ^ n).testBit i = false := by
      refine Nat.testBit_lt_two_pow ?_
      calc x + 2 ^ n < 2 ^ n + 2 ^ n := by omega
      _ = 2 ^ (n + 1) := by ring
      _ ≤ 2 ^ i := Nat.pow_le_pow_right (by norm_num) hi
    simp [h1, h2, h3]

/-- Evaluation of the value fold as a sum of powers of two, together with the
bound making the next or-step an addition. -/
theorem foldOr_sum_gen (input : Nat → Bool) (n : Nat) :
    List.foldl (fun a i => if input i then a ||| (1 <<< i) else a) 0 (List.range n) =
      Finset.sum (Finset.range n) (fun i => if input i then 2 ^ i else 0) ∧
    Finset.sum (Finset.range n) (fun i => if input i then 2 ^ i else 0) < 2 ^ n := by
  induction n with
  | zero => exact ⟨rfl, by norm_num⟩
  | succ k ih =>
    have h2 : (2 : Nat) ^ (k + 1) = 2 ^ k + 2 ^ k := by ring
    constructor
    · rw [List.range_succ, List.foldl_append, List.foldl_cons, List.foldl_nil, ih.1,
        Finset.sum_range_succ]
      cases h : input k
      · simp [h]
      · simp only [h, if_true]
        rw [Nat.shiftLeft_eq, one_mul, or_two_pow_eq_add k _ ih.2]
    · rw [Finset.sum_range_succ]
      have := ih.2
      cases h : input k
      · simp only [h, Bool.false_eq_true, if_false]
        omega
      · simp only [h, if_true]
        omega

/-- Evaluation of the value fold over the eight bit indices. -/
theorem foldOr_sum (input : Nat → Bool) :
    List.foldl (fun a i => if input i then a ||| (1 <<< i) else a) 0 (List.range 8) =
      Finset.sum (Finset.range 8) (fun i => if input i then 2 ^ i else 0) :=
  (foldOr_sum_gen input 8).1

/-- The byte `readByte` assembles: bit `i` is set exactly when the data line
was high at sampling instant `i`. -/
theorem readByte_value (s : Bits.LineState) (input : Nat → Bool) :
    (Bits.readByte s input).2 =
      Finset.sum (Finset.range 8) (fun i => if input i then 2 ^ i else 0) :=
  (readFold_snd input (List.range 8)
    (Bits.pinConfigure s Bits.PinId.dat Bits.PinMode.input) 0).trans (foldOr_sum input)

/-- Claim C7: `writeByte` first configures the data line as an output, then
for bit indices 0..7 (least-significant first) drives the data line to the
bit's value, raises the clock, holds the fixed delay, lowers the clock and
holds the delay again; `readByte` configures the data line as an input and,
for bit indices 0..7, raises the clock, waits, samples the line (setting bit
`i` when high), lowers the clock and waits, returning the assembled byte. -/
theorem transport_byte_protocol (s : Bits.LineState) (data : Nat) (input : Nat → Bool) :
    (Bits.writeByte s data).trace = s.trace ++ Bits.writeByteEvents data ∧
    (Bits.readByte s input).1.trace = s.trace ++ Bits.readByteEvents input ∧
    (Bits.readByte s input).2 =
      Finset.sum (Finset.range 8) (fun i => if input i then 2 ^ i else 0) :=
  ⟨writeByte_trace s data, readByte_trace s input, readByte_value s input⟩

/-- Claim C8: each register access is bracketed in its own chip-select
pulse: both `writeRegister` and `readRegister` drive chip select high
before any byte transfer, transmit the one-byte register address, then
transfer exactly one data byte, and drive chip select low afterwards; no
event of the byte transfers acts on the chip-select line. -/
theorem register_access_cs_bracket (s : Bits.LineState) (reg value : Nat)
    (input : Nat → Bool) :
    ((Bits.writeRegister s reg value).trace =
        s.trace ++ [Bits.Event.set Bits.PinId.rst Bits.Level.high] ++
          (Bits.writeByteEvents reg ++ Bits.writeByteEvents value) ++
          [Bits.Event.set Bits.PinId.rst Bits.Level.low] ∧
      (Bits.writeByteEvents reg ++ Bits.writeByteEvents value).all
          (fun e => !(Bits.touchesRst e)) = true) ∧
    ((Bits.readRegister s reg input).1.trace =
        s.trace ++ [Bits.Event.set Bits.PinId.rst Bits.Level.high] ++
          (Bits.writeByteEvents reg ++ Bits.readByteEvents input) ++
          [Bits.Event.set Bits.PinId.rst Bits.Level.low] ∧
      (Bits.writeByteEvents reg ++ Bits.readByteEvents input).all
          (fun e => !(Bits.touchesRst e)) = true) := by
  refine ⟨⟨?_, ?_⟩, ?_, ?_⟩
  · simp only [Bits.writeRegister]
    rw [pinSet_trace, writeByte_trace, writeByte_trace, pinSet_trace]
    simp [List.append_assoc]
  · rfl
  · simp only [Bits.readRegister]
    rw [pinSet_trace, readByte_trace, writeByte_trace, pinSet_trace]
    simp [List.append_assoc]
  · rfl

/-- Claim C9: on the no-op stub backend every sequence of calls performs no
pin action and always completes (`runCalls` is total), and each `ReadTime`
call returns the zero `time.Time`, regardless of any prior `SetTime`
arguments. -/
theorem stub_backend_noop (calls : List StubCall) :
    (Stub.runCalls calls).1 = [] ∧
    (Stub.runCalls calls).2 = (calls.filter Stub.isRead).map (fun _ => Stub.zeroTime) := by
  induction calls with
  | nil => exact ⟨rfl, rfl⟩
  | cons c rest ih =>
    cases c <;>
      simp [Stub.runCalls, Stub.Init, Stub.SetTime, Stub.ReadTime, Stub.isRead,
        List.filter_cons, ih.1, ih.2]
